import Mathlib

/-
Shallow embedding of the slimit ECMAVisitor (src/src/slimit/visitors/ecmavisitor.py).
The visitor walks an ECMAScript tree and renders it to text, threading a
mutable indentation counter (indent_level, an integer initialised to 0 by
the constructor).  We model one visit call as a function from a node and the
current counter value to a pair of an Except result and the counter value
after the call: a raised Python exception is Except.error and, as in Python,
leaves the counter at whatever value it had when the exception was raised
(there is no try/finally in the source).
-/

/-- Abbreviation used for textual fields so that the constructor named String
below cannot shadow the field types. -/
abbrev Str := String

mutual

/-- One tree node per slimit ast class, as read by the visitor methods.
Fields mirror the attributes each visit method reads.  The extra constructor
Unknown models a node object of a class with no visit method (handled by
generic_visit, line 42); Malformed models a node of a known class with a
missing required attribute, whose visit raises AttributeError (the failure
mode the code exhibits on malformed trees).  Continue and Break carry an
optional identifier node; the flag for a suffix operator of UnaryOp is the field named post. -/
inductive Node where
  | Program (children : NodeList)
  | Block (children : NodeList)
  | VarStatement (children : NodeList)
  | VarDecl (identifier : Node) (initializer : ONode)
  | Identifier (value : Str)
  | Assign (op : Str) (left : Node) (right : Node)
  | Number (value : Str)
  | Comma (left : Node) (right : Node)
  | EmptyStatement (value : Str)
  | If (predicate : ONode) (consequent : Node) (alternative : ONode)
  | Boolean (value : Str)
  | For (ini : Node) (cond : ONode) (count : ONode) (statement : Node)
  | ForIn (item : Node) (iterable : Node) (statement : Node)
  | BinOp (op : Str) (left : Node) (right : Node)
  | UnaryOp (op : Str) (value : Node) (post : Bool)
  | ExprStatement (expr : Node)
  | DoWhile (predicate : Node) (statement : Node)
  | While (predicate : Node) (statement : Node)
  | Null (value : Str)
  | String (value : Str)
  | Continue (identifier : ONode)
  | Break (identifier : ONode)
  | Return (expr : ONode)
  | With (expr : Node) (statement : Node)
  | Label (identifier : Node) (statement : Node)
  | Switch (expr : Node) (cases : NodeList) (dflt : ONode)
  | Case (expr : Node) (elements : NodeList)
  | Default (elements : NodeList)
  | Throw (expr : Node)
  | Debugger (value : Str)
  | Try (statements : Node) (ctch : ONode) (fin : ONode)
  | Catch (identifier : Node) (elements : Node)
  | Finally (elements : Node)
  | Unknown (kind : Str) (addr : Str)
  | Malformed

/-- Ordered list of child nodes (node.children, node.elements, node.cases). -/
inductive NodeList where
  | nil
  | cons (head : Node) (tail : NodeList)

/-- Optional child: a node attribute that the code compares with None. -/
inductive ONode where
  | none
  | some (node : Node)

end

/-- Line 35-36: _make_indent returns a run of indent_level spaces.  Python
string repetition with a non-positive count yields the empty string, which
Int.toNat reproduces. -/
def mkIndent (i : Int) : Str := String.mk (List.replicate i.toNat ' ')

/-- Line 104: isinstance(node.init, (ast.Assign, ast.Comma)). -/
def isAssignOrComma : Node → Bool
  | .Assign _ _ _ => true
  | .Comma _ _ => true
  | _ => false

/-- Line 117: isinstance(node.item, ast.VarDecl). -/
def isVarDecl : Node → Bool
  | .VarDecl _ _ => true
  | _ => false

/-- Modelled from the spec: the slimit ast module is not part of the given
sources, so the repr of a node of an unregistered class is not visible; the
spec states that the fallback embeds the node kind name and its raw
representation, which is what the default Python object repr
(module-qualified class name plus address) provides.  We model the raw
representation of an Unknown node from those words. -/
def pyRepr (kind addr : Str) : Str :=
  "<slimit.ast." ++ kind ++ " object at 0x" ++ addr ++ ">"

/-- Line 42-43: generic_visit returns the string GEN: followed by the node
repr (the format is the Python expression involving a percent and the letter
r applied to the node). -/
def generic_visit (kind addr : Str) : Str := "GEN: " ++ pyRepr kind addr

/-- Line 70-71 as a directly-called helper: visit_Continue and visit_Break
(lines 160 and 168) call visit_Identifier directly on their identifier
attribute, bypassing the dispatcher.  The method returns node.value; on a
node carrying a textual value attribute this is that text, and on a node
without one the attribute read raises, which we model as an error. -/
def visit_Identifier : Node → Except Unit Str
  | .Identifier v => .ok v
  | .Number v => .ok v
  | .Boolean v => .ok v
  | .EmptyStatement v => .ok v
  | .Null v => .ok v
  | .String v => .ok v
  | .Debugger v => .ok v
  | _ => .error ()

/-- Sequencing of two steps of a visit method: Python evaluates the first
piece; if it raises, the exception propagates with the indentation counter
left at the value it had at the raise point, and otherwise the rest of the
method body runs with the produced string and the current counter.  This is
the exception-propagation glue used to transcribe each method body. -/
def chain {α β : Type} (m : Except Unit α × Int)
    (f : α → Int → Except Unit β × Int) : Except Unit β × Int :=
  match m with
  | (.ok a, j) => f a j
  | (.error e, j) => (.error e, j)

mutual

/-- Lines 38-246: the dispatcher and all visit methods, with the indentation
counter threaded explicitly.  Each arm mirrors one visit method of the
source, preserving its evaluation order (children are visited left to right
in the order the Python string formatting evaluates them) and its mutations
of indent_level; chain propagates a raised exception, skipping any pending
decrement, exactly as the source does. -/
def visit : Node → Int → Except Unit Str × Int
  | .Program children, i =>
    chain (visitList children i) (fun parts j =>
      (.ok (String.intercalate ("\n") parts), j))
  | .Block children, i =>
    chain (visitList children (i + 2)) (fun parts j =>
      (.ok (mkIndent i ++ "\x7b\n" ++ String.intercalate ("\n") parts ++
            mkIndent (j - 2) ++ "\n\x7d"), j - 2))
  | .VarStatement children, i =>
    chain (visitList children i) (fun parts j =>
      (.ok (mkIndent i ++ "var " ++ String.intercalate (", ") parts ++ ";"), j))
  | .VarDecl identifier initializer, i =>
    chain (visit identifier i) (fun idt j =>
      match initializer with
      | .none => (.ok idt, j)
      | .some ini =>
        chain (visit ini j) (fun it k => (.ok (idt ++ " = " ++ it), k)))
  | .Identifier value, i => (.ok value, i)
  | .Assign op left right, i =>
    chain (visit left i) (fun l j =>
      chain (visit right j) (fun r k =>
        (.ok (mkIndent i ++ l ++ " " ++ op ++ " " ++ r), k)))
  | .Number value, i => (.ok value, i)
  | .Comma left right, i =>
    chain (visit left i) (fun l j =>
      chain (visit right j) (fun r k => (.ok (l ++ ", " ++ r), k)))
  | .EmptyStatement value, i => (.ok (mkIndent i ++ value), i)
  | .If predicate consequent alternative, i =>
    chain (match predicate with
           | .none => ((.ok ("if (") : Except Unit Str), i)
           | .some p => chain (visit p i) (fun ps jp =>
               (.ok ("if (" ++ ps), jp)))
      (fun s1 j =>
        chain (visit consequent j) (fun cs k =>
          match alternative with
          | .none => (.ok (s1 ++ ") " ++ cs), k)
          | .some a =>
            chain (visit a k) (fun als m =>
              (.ok (s1 ++ ") " ++ cs ++ " else " ++ als), m))))
  | .Boolean value, i => (.ok value, i)
  | .For ini cond count statement, i =>
    chain (visit ini i) (fun inis j =>
      chain (match cond with
             | .none => ((.ok ("") : Except Unit Str), j)
             | .some c => visit c j)
        (fun cs k =>
          chain (match count with
                 | .none => ((.ok ("") : Except Unit Str), k)
                 | .some c2 => visit c2 k)
            (fun ks m =>
              chain (visit statement m) (fun ss n2 =>
                (.ok ("for (" ++ inis ++
                      (if isAssignOrComma ini then ("; ") else (" ")) ++
                      cs ++ "; " ++ ks ++ ") " ++ ss), n2)))))
  | .ForIn item iterable statement, i =>
    chain (visit item i) (fun its j =>
      chain (visit iterable j) (fun ibs k =>
        chain (visit statement k) (fun ss m =>
          (.ok ((if isVarDecl item then ("for (var ") else ("for (")) ++ its ++
                " in " ++ ibs ++ ") " ++ ss), m))))
  | .BinOp op left right, i =>
    chain (visit left i) (fun l j =>
      chain (visit right j) (fun r k =>
        (.ok (l ++ " " ++ op ++ " " ++ r), k)))
  | .UnaryOp op value post, i =>
    chain (visit value i) (fun vs j =>
      (.ok (if post then vs ++ op else op ++ vs), j))
  | .ExprStatement expr, i =>
    chain (visit expr i) (fun es j => (.ok (es ++ ";"), j))
  | .DoWhile predicate statement, i =>
    chain (visit statement i) (fun ss j =>
      chain (visit predicate j) (fun ps k =>
        (.ok ("do " ++ ss ++ " while (" ++ ps ++ ");"), k)))
  | .While predicate statement, i =>
    chain (visit predicate i) (fun ps j =>
      chain (visit statement j) (fun ss k =>
        (.ok ("while (" ++ ps ++ ") " ++ ss), k)))
  | .Null _, i => (.ok ("null"), i)
  | .String value, i => (.ok value, i)
  | .Continue identifier, i =>
    (match identifier with
     | .some idn =>
       (match visit_Identifier idn with
        | .ok v => (.ok (mkIndent i ++ "continue " ++ v ++ ";"), i)
        | .error e => (.error e, i))
     | .none => (.ok (mkIndent i ++ "continue;"), i))
  | .Break identifier, i =>
    (match identifier with
     | .some idn =>
       (match visit_Identifier idn with
        | .ok v => (.ok (mkIndent i ++ "break " ++ v ++ ";"), i)
        | .error e => (.error e, i))
     | .none => (.ok (mkIndent i ++ "break;"), i))
  | .Return expr, i =>
    match expr with
    | .none => (.ok (mkIndent i ++ "return;"), i)
    | .some e =>
      chain (visit e i) (fun es j =>
        (.ok (mkIndent i ++ "return " ++ es ++ ";"), j))
  | .With expr statement, i =>
    chain (visit expr i) (fun es j =>
      chain (visit statement j) (fun ss k =>
        (.ok (mkIndent i ++ "with (" ++ es ++ ") " ++ ss), k)))
  | .Label identifier statement, i =>
    chain (visit identifier i) (fun ids j =>
      chain (visit statement j) (fun ss k =>
        (.ok (mkIndent i ++ ids ++ ": " ++ ss), k)))
  | .Switch expr cases dflt, i =>
    chain (visit expr i) (fun es j =>
      chain (visitCases cases (j + 2)) (fun cs k =>
        chain (match dflt with
               | .none => ((.ok ("") : Except Unit Str), k)
               | .some d =>
                 match d with
                 | .Default els =>
                   chain (visitList els (k + 2)) (fun parts m =>
                     (.ok (mkIndent k ++ "default:\n" ++
                           String.intercalate ("\n") parts), m - 2))
                 | _ => ((.error () : Except Unit Str), k))
          (fun ds m =>
            (.ok (mkIndent i ++ "switch (" ++ es ++ ") \x7b\n" ++ cs ++ ds ++
                  "\n\x7d"), m - 2))))
  | .Case ex els, i =>
    chain (visit ex i) (fun exs j =>
      chain (visitList els (j + 2)) (fun parts m =>
        (.ok (mkIndent i ++ "case " ++ exs ++ ":\n" ++
              (if String.intercalate ("\n") parts = "" then ("")
               else String.intercalate ("\n") parts ++ "\n")), m - 2)))
  | .Default els, i =>
    chain (visitList els (i + 2)) (fun parts m =>
      (.ok (mkIndent i ++ "default:\n" ++ String.intercalate ("\n") parts),
       m - 2))
  | .Throw expr, i =>
    chain (visit expr i) (fun es j =>
      (.ok (mkIndent i ++ "throw " ++ es ++ ";"), j))
  | .Debugger value, i => (.ok (value ++ ";"), i)
  | .Try statements ctch fin, i =>
    chain (visit statements i) (fun bs j =>
      chain (match ctch with
             | .none => ((.ok ("") : Except Unit Str), j)
             | .some c => chain (visit c j) (fun cs k =>
                 (.ok (" " ++ cs), k)))
        (fun cs k =>
          chain (match fin with
                 | .none => ((.ok ("") : Except Unit Str), k)
                 | .some f => chain (visit f k) (fun fs m =>
                     (.ok (" " ++ fs), m)))
            (fun fs m =>
              (.ok (mkIndent i ++ "try " ++ bs ++ cs ++ fs), m))))
  | .Catch identifier elements, i =>
    chain (visit identifier i) (fun ids j =>
      chain (visit elements j) (fun els k =>
        (.ok (mkIndent i ++ "catch (" ++ ids ++ ") " ++ els), k)))
  | .Finally elements, i =>
    chain (visit elements i) (fun els j =>
      (.ok (mkIndent i ++ "finally " ++ els), j))
  | .Unknown kind addr, i => (.ok (generic_visit kind addr), i)
  | .Malformed, i => (.error (), i)
termination_by n _ => sizeOf n

/-- The generator expressions over node.children and node.elements that the
join calls consume: each child is visited in order, and an exception raised
by one child propagates, leaving the counter where it was at that point. -/
def visitList : NodeList → Int → Except Unit (List Str) × Int
  | .nil, i => (.ok [], i)
  | .cons c rest, i =>
    chain (visit c i) (fun s j =>
      chain (visitList rest j) (fun ss k =>
        ((.ok (s :: ss) : Except Unit (List Str)), k)))
termination_by l _ => sizeOf l

/-- Lines 196-197: the loop in visit_Switch that calls visit_Case directly
on each entry of node.cases and concatenates the results.  The body of each
iteration is the visit_Case method (lines 204-212); an entry that is not a
Case node raises on its attribute reads. -/
def visitCases : NodeList → Int → Except Unit Str × Int
  | .nil, i => (.ok (""), i)
  | .cons c rest, i =>
    match c with
    | .Case ex els =>
      chain (visit ex i) (fun exs j =>
        chain (visitList els (j + 2)) (fun parts m =>
          chain (visitCases rest (m - 2)) (fun srest n2 =>
            (.ok ((mkIndent i ++ "case " ++ exs ++ ":\n" ++
                   (if String.intercalate ("\n") parts = "" then ("")
                    else String.intercalate ("\n") parts ++ "\n")) ++ srest),
             n2))))
    | _ => (.error (), i)
termination_by l _ => sizeOf l

end

/-- Lines 32-33 and 38: a freshly constructed ECMAVisitor has indent_level 0;
this is one whole render call on a fresh visitor. -/
def freshVisit (node : Node) : Except Unit Str × Int := visit node 0

/-- Equality of visit results is decidable, so concrete renderings can be
checked by evaluation. -/
instance : DecidableEq (Except Unit Str) := fun x y =>
  match x, y with
  | .ok a, .ok b =>
    if h : a = b then .isTrue (by rw [h])
    else .isFalse (fun hc => h (Except.ok.inj hc))
  | .error a, .error b =>
    if h : a = b then .isTrue (by rw [h])
    else .isFalse (fun hc => h (Except.error.inj hc))
  | .ok _, .error _ => .isFalse (fun hc => Except.noConfusion hc)
  | .error _, .ok _ => .isFalse (fun hc => Except.noConfusion hc)

/-- Inversion for chain: a successful sequencing means the first piece
succeeded and the continuation produced the final outcome. -/
theorem chain_ok {α β : Type} {m : Except Unit α × Int}
    {f : α → Int → Except Unit β × Int} {r : β} {j : Int}
    (h : chain m f = (Except.ok r, j)) :
    ∃ a k, m = (Except.ok a, k) ∧ f a k = (Except.ok r, j) := by
  obtain ⟨res, k⟩ := m
  cases res with
  | ok a => exact ⟨a, k, rfl, h⟩
  | error e => exact Except.noConfusion (congrArg Prod.fst h)

set_option maxHeartbeats 1600000 in
mutual

theorem visit_ok_level : ∀ (n : Node) (i : Int) (r : Str) (j : Int),
    visit n i = (Except.ok r, j) → j = i
  | .Program children, i, r, j, h => by
    simp only [visit] at h
    obtain ⟨parts, j2, heq, h⟩ := chain_ok h
    have e1 := visitList_ok_level children i parts j2 heq
    injection h with h1 h2
    omega
  | .Block children, i, r, j, h => by
    simp only [visit] at h
    obtain ⟨parts, j2, heq, h⟩ := chain_ok h
    have e1 := visitList_ok_level children (i + 2) parts j2 heq
    injection h with h1 h2
    omega
  | .VarStatement children, i, r, j, h => by
    simp only [visit] at h
    obtain ⟨parts, j2, heq, h⟩ := chain_ok h
    have e1 := visitList_ok_level children i parts j2 heq
    injection h with h1 h2
    omega
  | .VarDecl identifier initializer, i, r, j, h => by
    simp only [visit] at h
    obtain ⟨idt, j1, heq1, h⟩ := chain_ok h
    have e1 := visit_ok_level identifier i idt j1 heq1
    cases initializer with
    | none =>
      injection h with h1 h2
      omega
    | some ini =>
      obtain ⟨it, k, heq2, h⟩ := chain_ok h
      have e2 := visit_ok_level ini j1 it k heq2
      injection h with h1 h2
      omega
  | .Identifier v, i, r, j, h => by
    simp only [visit] at h
    injection h with h1 h2
    exact h2.symm
  | .Assign op left right, i, r, j, h => by
    simp only [visit] at h
    obtain ⟨l, j1, heq1, h⟩ := chain_ok h
    have e1 := visit_ok_level left i l j1 heq1
    obtain ⟨rr, k, heq2, h⟩ := chain_ok h
    have e2 := visit_ok_level right j1 rr k heq2
    injection h with h1 h2
    omega
  | .Number v, i, r, j, h => by
    simp only [visit] at h
    injection h with h1 h2
    exact h2.symm
  | .Comma left right, i, r, j, h => by
    simp only [visit] at h
    obtain ⟨l, j1, heq1, h⟩ := chain_ok h
    have e1 := visit_ok_level left i l j1 heq1
    obtain ⟨rr, k, heq2, h⟩ := chain_ok h
    have e2 := visit_ok_level right j1 rr k heq2
    injection h with h1 h2
    omega
  | .EmptyStatement v, i, r, j, h => by
    simp only [visit] at h
    injection h with h1 h2
    exact h2.symm
  | .If predicate consequent alternative, i, r, j, h => by
    have main : ∀ (s1 : Str) (j1 : Int), j1 = i →
        chain (visit consequent j1) (fun cs k =>
          match alternative with
          | .none => (.ok (s1 ++ ") " ++ cs), k)
          | .some a =>
            chain (visit a k) (fun als m =>
              (.ok (s1 ++ ") " ++ cs ++ " else " ++ als), m))) = (.ok r, j) →
        j = i := by
      intro s1 j1 e1 h
      obtain ⟨cs, k, heqC, h⟩ := chain_ok h
      have e2 := visit_ok_level consequent j1 cs k heqC
      cases alternative with
      | none =>
        injection h with h1 h2
        omega
      | some a =>
        obtain ⟨als, m, heqA, h⟩ := chain_ok h
        have e3 := visit_ok_level a k als m heqA
        injection h with h1 h2
        omega
    cases predicate with
    | none =>
      simp only [visit] at h
      obtain ⟨s1, j1, heqP, h⟩ := chain_ok h
      injection heqP with a b
      exact main s1 j1 b.symm h
    | some p =>
      simp only [visit] at h
      obtain ⟨s1, j1, heqP, h⟩ := chain_ok h
      obtain ⟨ps, jp, heqp, hp⟩ := chain_ok heqP
      have ep := visit_ok_level p i ps jp heqp
      injection hp with a b
      exact main s1 j1 (by omega) h
  | .Boolean v, i, r, j, h => by
    simp only [visit] at h
    injection h with h1 h2
    exact h2.symm
  | .For ini cond count statement, i, r, j, h => by
    simp only [visit] at h
    obtain ⟨inis, j1, heq1, h⟩ := chain_ok h
    have e1 := visit_ok_level ini i inis j1 heq1
    obtain ⟨cs, k, heq2, h⟩ := chain_ok h
    have e2 : k = j1 := by
      cases cond with
      | none =>
        injection heq2 with a b
        omega
      | some c => exact visit_ok_level c j1 cs k heq2
    obtain ⟨ks, m, heq3, h⟩ := chain_ok h
    have e3 : m = k := by
      cases count with
      | none =>
        injection heq3 with a b
        omega
      | some c2 => exact visit_ok_level c2 k ks m heq3
    obtain ⟨ss, n2, heq4, h⟩ := chain_ok h
    have e4 := visit_ok_level statement m ss n2 heq4
    injection h with h1 h2
    omega
  | .ForIn item iterable statement, i, r, j, h => by
    simp only [visit] at h
    obtain ⟨its, j1, heq1, h⟩ := chain_ok h
    have e1 := visit_ok_level item i its j1 heq1
    obtain ⟨ibs, k, heq2, h⟩ := chain_ok h
    have e2 := visit_ok_level iterable j1 ibs k heq2
    obtain ⟨ss, m, heq3, h⟩ := chain_ok h
    have e3 := visit_ok_level statement k ss m heq3
    injection h with h1 h2
    omega
  | .BinOp op left right, i, r, j, h => by
    simp only [visit] at h
    obtain ⟨l, j1, heq1, h⟩ := chain_ok h
    have e1 := visit_ok_level left i l j1 heq1
    obtain ⟨rr, k, heq2, h⟩ := chain_ok h
    have e2 := visit_ok_level right j1 rr k heq2
    injection h with h1 h2
    omega
  | .UnaryOp op value post, i, r, j, h => by
    simp only [visit] at h
    obtain ⟨vs, j1, heq1, h⟩ := chain_ok h
    have e1 := visit_ok_level value i vs j1 heq1
    injection h with h1 h2
    omega
  | .ExprStatement expr, i, r, j, h => by
    simp only [visit] at h
    obtain ⟨es, j1, heq1, h⟩ := chain_ok h
    have e1 := visit_ok_level expr i es j1 heq1
    injection h with h1 h2
    omega
  | .DoWhile predicate statement, i, r, j, h => by
    simp only [visit] at h
    obtain ⟨ss, j1, heq1, h⟩ := chain_ok h
    have e1 := visit_ok_level statement i ss j1 heq1
    obtain ⟨ps, k, heq2, h⟩ := chain_ok h
    have e2 := visit_ok_level predicate j1 ps k heq2
    injection h with h1 h2
    omega
  | .While predicate statement, i, r, j, h => by
    simp only [visit] at h
    obtain ⟨ps, j1, heq1, h⟩ := chain_ok h
    have e1 := visit_ok_level predicate i ps j1 heq1
    obtain ⟨ss, k, heq2, h⟩ := chain_ok h
    have e2 := visit_ok_level statement j1 ss k heq2
    injection h with h1 h2
    omega
  | .Null v, i, r, j, h => by
    simp only [visit] at h
    injection h with h1 h2
    exact h2.symm
  | .String v, i, r, j, h => by
    simp only [visit] at h
    injection h with h1 h2
    exact h2.symm
  | .Continue identifier, i, r, j, h => by
    cases identifier with
    | none =>
      simp only [visit] at h
      injection h with h1 h2
      exact h2.symm
    | some idn =>
      simp only [visit] at h
      cases hv : visit_Identifier idn with
      | ok v =>
        rw [hv] at h
        injection h with h1 h2
        exact h2.symm
      | error e =>
        rw [hv] at h
        exact Except.noConfusion (congrArg Prod.fst h)
  | .Break identifier, i, r, j, h => by
    cases identifier with
    | none =>
      simp only [visit] at h
      injection h with h1 h2
      exact h2.symm
    | some idn =>
      simp only [visit] at h
      cases hv : visit_Identifier idn with
      | ok v =>
        rw [hv] at h
        injection h with h1 h2
        exact h2.symm
      | error e =>
        rw [hv] at h
        exact Except.noConfusion (congrArg Prod.fst h)
  | .Return expr, i, r, j, h => by
    cases expr with
    | none =>
      simp only [visit] at h
      injection h with h1 h2
      exact h2.symm
    | some e =>
      simp only [visit] at h
      obtain ⟨es, j1, heq1, h⟩ := chain_ok h
      have e1 := visit_ok_level e i es j1 heq1
      injection h with h1 h2
      omega
  | .With expr statement, i, r, j, h => by
    simp only [visit] at h
    obtain ⟨es, j1, heq1, h⟩ := chain_ok h
    have e1 := visit_ok_level expr i es j1 heq1
    obtain ⟨ss, k, heq2, h⟩ := chain_ok h
    have e2 := visit_ok_level statement j1 ss k heq2
    injection h with h1 h2
    omega
  | .Label identifier statement, i, r, j, h => by
    simp only [visit] at h
    obtain ⟨ids, j1, heq1, h⟩ := chain_ok h
    have e1 := visit_ok_level identifier i ids j1 heq1
    obtain ⟨ss, k, heq2, h⟩ := chain_ok h
    have e2 := visit_ok_level statement j1 ss k heq2
    injection h with h1 h2
    omega
  | .Switch expr cases dflt, i, r, j, h => by
    simp only [visit] at h
    obtain ⟨es, j1, heqE, h1⟩ := chain_ok h
    clear h
    have e1 := visit_ok_level expr i es j1 heqE
    obtain ⟨cs, k, heqC, h2⟩ := chain_ok h1
    clear h1
    have e2 := visitCases_ok_level cases (j1 + 2) cs k heqC
    obtain ⟨ds, m, heqD, h3⟩ := chain_ok h2
    clear h2
    injection h3 with hv hstate
    have e3 : m = k := by
      cases dflt with
      | none =>
        injection heqD with a b
        omega
      | some d =>
        cases d <;>
          first
          | exact Except.noConfusion (congrArg Prod.fst heqD)
          | (rename_i els
             obtain ⟨parts, m2, heqL, hd⟩ := chain_ok heqD
             have := visitList_ok_level els (k + 2) parts m2 heqL
             injection hd with a b
             omega)
    omega
  | .Case ex els, i, r, j, h => by
    simp only [visit] at h
    obtain ⟨exs, j1, heq1, h⟩ := chain_ok h
    have e1 := visit_ok_level ex i exs j1 heq1
    obtain ⟨parts, m, heq2, h⟩ := chain_ok h
    have e2 := visitList_ok_level els (j1 + 2) parts m heq2
    injection h with h1 h2
    omega
  | .Default els, i, r, j, h => by
    simp only [visit] at h
    obtain ⟨parts, m, heq, h⟩ := chain_ok h
    have e1 := visitList_ok_level els (i + 2) parts m heq
    injection h with h1 h2
    omega
  | .Throw expr, i, r, j, h => by
    simp only [visit] at h
    obtain ⟨es, j1, heq1, h⟩ := chain_ok h
    have e1 := visit_ok_level expr i es j1 heq1
    injection h with h1 h2
    omega
  | .Debugger v, i, r, j, h => by
    simp only [visit] at h
    injection h with h1 h2
    exact h2.symm
  | .Try statements ctch fin, i, r, j, h => by
    simp only [visit] at h
    obtain ⟨bs, j1, heq1, h⟩ := chain_ok h
    have e1 := visit_ok_level statements i bs j1 heq1
    obtain ⟨cs, k, heqC, h⟩ := chain_ok h
    have e2 : k = j1 := by
      cases ctch with
      | none =>
        injection heqC with a b
        omega
      | some c =>
        obtain ⟨cs0, k0, heqc, hc⟩ := chain_ok heqC
        have := visit_ok_level c j1 cs0 k0 heqc
        injection hc with a b
        omega
    obtain ⟨fs, m, heqF, h⟩ := chain_ok h
    have e3 : m = k := by
      cases fin with
      | none =>
        injection heqF with a b
        omega
      | some f =>
        obtain ⟨fs0, m0, heqf, hf⟩ := chain_ok heqF
        have := visit_ok_level f k fs0 m0 heqf
        injection hf with a b
        omega
    injection h with h1 h2
    omega
  | .Catch identifier elements, i, r, j, h => by
    simp only [visit] at h
    obtain ⟨ids, j1, heq1, h⟩ := chain_ok h
    have e1 := visit_ok_level identifier i ids j1 heq1
    obtain ⟨els, k, heq2, h⟩ := chain_ok h
    have e2 := visit_ok_level elements j1 els k heq2
    injection h with h1 h2
    omega
  | .Finally elements, i, r, j, h => by
    simp only [visit] at h
    obtain ⟨els, j1, heq1, h⟩ := chain_ok h
    have e1 := visit_ok_level elements i els j1 heq1
    injection h with h1 h2
    omega
  | .Unknown kind addr, i, r, j, h => by
    simp only [visit] at h
    injection h with h1 h2
    exact h2.symm
  | .Malformed, i, r, j, h => by
    simp only [visit] at h
    exact Except.noConfusion (congrArg Prod.fst h)
termination_by n _ _ _ _ => sizeOf n

theorem visitList_ok_level : ∀ (l : NodeList) (i : Int) (rs : List Str) (j : Int),
    visitList l i = (Except.ok rs, j) → j = i
  | .nil, i, rs, j, h => by
    simp only [visitList] at h
    injection h with h1 h2
    exact h2.symm
  | .cons c rest, i, rs, j, h => by
    simp only [visitList] at h
    obtain ⟨s, j1, heq1, h⟩ := chain_ok h
    have e1 := visit_ok_level c i s j1 heq1
    obtain ⟨ss, k, heq2, h⟩ := chain_ok h
    have e2 := visitList_ok_level rest j1 ss k heq2
    injection h with h1 h2
    omega
termination_by l _ _ _ _ => sizeOf l

theorem visitCases_ok_level : ∀ (l : NodeList) (i : Int) (r : Str) (j : Int),
    visitCases l i = (Except.ok r, j) → j = i
  | .nil, i, r, j, h => by
    simp only [visitCases] at h
    injection h with h1 h2
    exact h2.symm
  | .cons c rest, i, r, j, h => by
    cases c
    case Case ex els =>
      simp only [visitCases] at h
      obtain ⟨exs, j1, heq1, h⟩ := chain_ok h
      have e1 := visit_ok_level ex i exs j1 heq1
      obtain ⟨parts, m, heq2, h⟩ := chain_ok h
      have e2 := visitList_ok_level els (j1 + 2) parts m heq2
      obtain ⟨srest, n2, heq3, h⟩ := chain_ok h
      have e3 := visitCases_ok_level rest (m - 2) srest n2 heq3
      injection h with h1 h2
      omega
    all_goals
      simp only [visitCases] at h
      exact Except.noConfusion (congrArg Prod.fst h)
termination_by l _ _ _ _ => sizeOf l

end

/-- Appending strings concatenates their character lists. -/
theorem str_data_append (a b : Str) : (a ++ b).data = a.data ++ b.data := rfl

/-- Appending the empty string on the right is the identity. -/
theorem str_append_empty (a : Str) : a ++ ("") = a := by
  apply String.ext
  rw [str_data_append]
  exact List.append_nil a.data

/-- The If-over-Block tree of the concrete rendering scenario: predicate is
the identifier x and the consequent is a Block holding the single statement
ExprStatement(x). -/
def ifBlockNode : Node :=
  .If (.some (.Identifier ("x")))
    (.Block (.cons (.ExprStatement (.Identifier ("x"))) .nil)) .none

/-- C1 counterexample: rendering the If-over-Block tree does not produce the
string claimed (with the inner statement indented by two spaces); the
ExprStatement rule emits no indentation, so the inner statement is flush
left. -/
theorem C1_counterexample :
    ¬ ((freshVisit ifBlockNode).1 = Except.ok ("if (x) \x7b\n  x;\n\x7d")) := by
  have he : freshVisit ifBlockNode = (Except.ok ("if (x) \x7b\nx;\n\x7d"), 0) := by
    simp only [ifBlockNode, freshVisit, visit, visitList, chain]
    decide
  intro hc
  rw [he] at hc
  exact absurd (Except.ok.inj hc) (by decide)

/-- C1 amended: rendering an If node whose predicate is the identifier x and
whose consequent is a Block containing the single statement ExprStatement(x)
returns exactly the text beginning if (x) followed by an open brace, a
newline, the unindented statement x; on its own line, a newline and the
closing brace: visit_ExprStatement emits no indentation of its own, so the
inner statement receives none. -/
theorem C1_if_block_render :
    freshVisit ifBlockNode = (Except.ok ("if (x) \x7b\nx;\n\x7d"), 0) := by
  simp only [ifBlockNode, freshVisit, visit, visitList, chain]
  decide

/-- C2 counterexample: rendering a Block whose single child is a malformed
node (whose own rendering raises) starts with the counter at 0 and ends with
the counter at 2: the pending decrement is skipped on the exception path, so
the counter is not restored on every code path. -/
theorem C2_counterexample :
    ¬ ((visit (.Block (.cons .Malformed .nil)) 0).2 = 0) := by
  have he : visit (.Block (.cons .Malformed .nil)) 0 = (Except.error (), 2) := by
    simp only [visit, visitList, chain]
    decide
  rw [he]
  decide

/-- C2 amended: for every node and every starting value of the indentation
counter, when the render call returns normally (no exception), the counter
equals the value it had when the call began; when an inner child rendering
raises inside a block-structured rule the pending decrement is skipped and
the counter can be left above its starting value. -/
theorem C2_indent_restored_on_success (n : Node) (i : Int) (r : Str) (j : Int)
    (h : visit n i = (Except.ok r, j)) : j = i :=
  visit_ok_level n i r j h

/-- C2 witness: a successful render on a concrete node at counter 5 ends
with the counter back at 5. -/
theorem C2_indent_restored_on_success_witness :
    visit (.Identifier ("a")) 5 = (Except.ok ("a"), 5) ∧ (5 : Int) = 5 :=
  ⟨by simp only [visit],
   C2_indent_restored_on_success (.Identifier ("a")) 5 ("a") 5 (by simp only [visit])⟩

/-- C3: visiting a node of a kind with no registered visit method returns
successfully with the generic_visit diagnostic text, which contains the
node kind name and the node raw representation as substrings. -/
theorem C3_unknown_kind_fallback (kind addr : Str) (i : Int) :
    visit (.Unknown kind addr) i = (Except.ok (generic_visit kind addr), i) ∧
    List.IsInfix kind.data (generic_visit kind addr).data ∧
    List.IsInfix (pyRepr kind addr).data (generic_visit kind addr).data := by
  refine ⟨by simp only [visit], ?_, ?_⟩
  · exact ⟨(("GEN: ") ++ ("<slimit.ast.")).data,
      ((" object at 0x") ++ addr ++ (">")).data, by
        simp only [generic_visit, pyRepr, str_data_append, List.append_assoc]⟩
  · exact ⟨("GEN: ").data, [], by
      simp only [generic_visit, str_data_append, List.append_nil]⟩

/-- C4: Identifier, Number, Boolean and String nodes render to exactly their
stored text at any counter value, with the counter unchanged, and a Null
node renders to the fixed keyword null whatever value it stores. -/
theorem C4_literal_fidelity (v : Str) (i : Int) :
    visit (.Identifier v) i = (Except.ok v, i) ∧
    visit (.Number v) i = (Except.ok v, i) ∧
    visit (.Boolean v) i = (Except.ok v, i) ∧
    visit (.String v) i = (Except.ok v, i) ∧
    visit (.Null v) i = (Except.ok ("null"), i) := by
  refine ⟨?_, ?_, ?_, ?_, ?_⟩ <;> simp only [visit]

/-- C5: the For rule separates the init rendering from the condition
position with the two-character text of a semicolon and a space exactly when
the init node is an Assign or a Comma, and with a single space otherwise;
the rendered text has the shape for, open paren, init, separator, cond,
semicolon-space, count, close paren, space, body, with an absent cond or
count contributing nothing, in all four configurations of present and
absent cond and count; and the separator test holds exactly for Assign and
Comma nodes. -/
theorem C5_for_init_separator :
    (∀ (ini c k stmt : Node) (i i1 i2 i3 i4 : Int) (si sc sk ss : Str),
      visit ini i = (Except.ok si, i1) →
      visit c i1 = (Except.ok sc, i2) →
      visit k i2 = (Except.ok sk, i3) →
      visit stmt i3 = (Except.ok ss, i4) →
      visit (.For ini (.some c) (.some k) stmt) i =
        (Except.ok ("for (" ++ si ++
          (if isAssignOrComma ini then ("; ") else (" ")) ++
          sc ++ "; " ++ sk ++ ") " ++ ss), i4)) ∧
    (∀ (ini c stmt : Node) (i i1 i2 i3 : Int) (si sc ss : Str),
      visit ini i = (Except.ok si, i1) →
      visit c i1 = (Except.ok sc, i2) →
      visit stmt i2 = (Except.ok ss, i3) →
      visit (.For ini (.some c) .none stmt) i =
        (Except.ok ("for (" ++ si ++
          (if isAssignOrComma ini then ("; ") else (" ")) ++
          sc ++ "; " ++ "" ++ ") " ++ ss), i3)) ∧
    (∀ (ini k stmt : Node) (i i1 i2 i3 : Int) (si sk ss : Str),
      visit ini i = (Except.ok si, i1) →
      visit k i1 = (Except.ok sk, i2) →
      visit stmt i2 = (Except.ok ss, i3) →
      visit (.For ini .none (.some k) stmt) i =
        (Except.ok ("for (" ++ si ++
          (if isAssignOrComma ini then ("; ") else (" ")) ++
          "" ++ "; " ++ sk ++ ") " ++ ss), i3)) ∧
    (∀ (ini stmt : Node) (i i1 i2 : Int) (si ss : Str),
      visit ini i = (Except.ok si, i1) →
      visit stmt i1 = (Except.ok ss, i2) →
      visit (.For ini .none .none stmt) i =
        (Except.ok ("for (" ++ si ++
          (if isAssignOrComma ini then ("; ") else (" ")) ++
          "" ++ "; " ++ "" ++ ") " ++ ss), i2)) ∧
    (∀ n : Node, isAssignOrComma n = true ↔
      ((∃ op l rr, n = .Assign op l rr) ∨ (∃ l rr, n = .Comma l rr))) := by
  refine ⟨?_, ?_, ?_, ?_, ?_⟩
  · intro ini c k stmt i i1 i2 i3 i4 si sc sk ss h1 h2 h3 h4
    simp only [visit, chain, h1, h2, h3, h4]
  · intro ini c stmt i i1 i2 i3 si sc ss h1 h2 h3
    simp only [visit, chain, h1, h2, h3]
  · intro ini k stmt i i1 i2 i3 si sk ss h1 h2 h3
    simp only [visit, chain, h1, h2, h3]
  · intro ini stmt i i1 i2 si ss h1 h2
    simp only [visit, chain, h1, h2]
  · intro n
    cases n
    case Assign op l rr => exact iff_of_true rfl (Or.inl ⟨op, l, rr, rfl⟩)
    case Comma l rr => exact iff_of_true rfl (Or.inr ⟨l, rr, rfl⟩)
    all_goals
      refine iff_of_false (by simp [isAssignOrComma]) ?_
      rintro (⟨op, l, rr, hc⟩ | ⟨l, rr, hc⟩) <;> exact Node.noConfusion hc

/-- C5 witness: a concrete for loop with an Assign init gets the
semicolon-space separator after the init rendering. -/
theorem C5_for_init_separator_witness :
    visit (.For (.Assign ("=") (.Identifier ("i")) (.Number ("0")))
      (.some (.BinOp ("<") (.Identifier ("i")) (.Number ("9"))))
      (.some (.UnaryOp ("++") (.Identifier ("i")) true))
      (.Block .nil)) 0 =
    (Except.ok ("for (i = 0; i < 9; i++) \x7b\n\n\x7d"), 0) := by
  have h1 : visit (.Assign ("=") (.Identifier ("i")) (.Number ("0"))) 0 =
      (Except.ok ("i = 0"), 0) := by
    simp only [visit, chain]
    decide
  have h2 : visit (.BinOp ("<") (.Identifier ("i")) (.Number ("9"))) 0 =
      (Except.ok ("i < 9"), 0) := by
    simp only [visit, chain]
    decide
  have h3 : visit (.UnaryOp ("++") (.Identifier ("i")) true) 0 =
      (Except.ok ("i++"), 0) := by
    simp only [visit, chain]
    decide
  have h4 : visit (.Block .nil) 0 = (Except.ok ("\x7b\n\n\x7d"), 0) := by
    simp only [visit, visitList, chain]
    decide
  exact (C5_for_init_separator.1 _ _ _ _ 0 0 0 0 0
    ("i = 0") ("i < 9") ("i++") ("\x7b\n\n\x7d") h1 h2 h3 h4).trans (by decide)

/-- C6 counterexample: the Debugger rendering is not independent of the
stored payload: two Debugger nodes with different stored values render to
different text. -/
theorem C6_counterexample :
    ¬ ((visit (.Debugger ("a")) 0).1 = (visit (.Debugger ("debugger")) 0).1) := by
  have ha : visit (.Debugger ("a")) 0 = (Except.ok ("a;"), 0) := by
    simp only [visit]
    decide
  have hb : visit (.Debugger ("debugger")) 0 = (Except.ok ("debugger;"), 0) := by
    simp only [visit]
    decide
  intro hc
  rw [ha, hb] at hc
  exact absurd (Except.ok.inj hc) (by decide)

/-- C6 amended: a Debugger node renders to its stored value followed by a
semicolon, at any counter value, with the counter unchanged: the text is
semicolon-terminated but does depend on the stored payload (which the
grammar normally sets to the debugger keyword). -/
theorem C6_debugger_render (v : Str) (i : Int) :
    visit (.Debugger v) i = (Except.ok (v ++ ";"), i) := by
  simp only [visit]

/-- C7: at counter zero, a Return node with no expression renders to the
current indentation followed by return and a semicolon, and a Return node
with an expression renders to the indentation, the word return, a space, the
expression rendering and a semicolon. -/
theorem C7_return_render :
    visit (.Return .none) 0 = (Except.ok (mkIndent 0 ++ "return;"), 0) ∧
    ∀ (e : Node) (t : Str) (j : Int), visit e 0 = (Except.ok t, j) →
      visit (.Return (.some e)) 0 =
        (Except.ok (mkIndent 0 ++ "return " ++ t ++ ";"), j) := by
  constructor
  · simp only [visit]
  · intro e t j h
    simp only [visit, chain, h]

/-- C7 witness: returning the number 1 renders to return 1 with a
semicolon. -/
theorem C7_return_render_witness :
    visit (.Return (.some (.Number ("1")))) 0 =
      (Except.ok (mkIndent 0 ++ "return " ++ "1" ++ ";"), 0) :=
  C7_return_render.2 (.Number ("1")) ("1") 0 (by simp only [visit])

/-- C8: the VarStatement with declarators a (no initializer) and b = 1
renders at counter zero to exactly var a, b = 1 with a semicolon. -/
theorem C8_var_statement_render :
    freshVisit (.VarStatement (.cons (.VarDecl (.Identifier ("a")) .none)
      (.cons (.VarDecl (.Identifier ("b")) (.some (.Number ("1")))) .nil))) =
    (Except.ok ("var a, b = 1;"), 0) := by
  simp only [freshVisit, visit, visitList, chain]
  decide

/-- C9: rendering is a function of the input tree alone: on equal trees,
two render invocations on freshly constructed visitors (counter zero)
return equal text. -/
theorem C9_deterministic_render (t1 t2 : Node) (h : t1 = t2) :
    (freshVisit t1).1 = (freshVisit t2).1 := by
  rw [h]

/-- C9 witness: the two invocations on the same concrete tree agree. -/
theorem C9_deterministic_render_witness :
    ((.Identifier ("a") : Node) = .Identifier ("a")) ∧
    (freshVisit (.Identifier ("a"))).1 = (freshVisit (.Identifier ("a"))).1 :=
  ⟨rfl, C9_deterministic_render (.Identifier ("a")) (.Identifier ("a")) rfl⟩

/-- C10 counterexample: a Block with zero statements at counter 2 does not
render to open brace, newline, the outer indentation, newline, close brace:
the rendering also begins with the outer indentation before the opening
brace. -/
theorem C10_counterexample :
    ¬ ((visit (.Block .nil) 2).1 =
        Except.ok ("\x7b\n" ++ mkIndent 2 ++ "\n\x7d")) := by
  have he : visit (.Block .nil) 2 =
      (Except.ok (mkIndent 2 ++ "\x7b\n" ++ mkIndent 2 ++ "\n\x7d"), 2) := by
    simp only [visit, visitList, chain]
    decide
  intro hc
  rw [he] at hc
  exact absurd (Except.ok.inj hc) (by decide)

/-- C10 amended: every successful Block rendering at counter i ends with the
restored outer indentation, a newline and the closing brace (so the brace
starts its line), and a Block with zero statements renders to the outer
indentation, an opening brace, a newline, the outer indentation again, a
newline and the closing brace, with the counter restored. -/
theorem C10_block_closing_brace :
    (∀ (children : NodeList) (i : Int) (r : Str),
      (visit (.Block children) i).1 = Except.ok r →
      List.IsSuffix (mkIndent i ++ "\n\x7d").data r.data) ∧
    (∀ i : Int, visit (.Block .nil) i =
      (Except.ok (mkIndent i ++ "\x7b\n" ++ mkIndent i ++ "\n\x7d"), i)) := by
  constructor
  · intro children i r h
    have hpair : visit (.Block children) i =
        ((visit (.Block children) i).1, (visit (.Block children) i).2) := rfl
    rw [h] at hpair
    simp only [visit] at hpair
    obtain ⟨parts, j2, heq, hb⟩ := chain_ok hpair
    have e := visitList_ok_level children (i + 2) parts j2 heq
    injection hb with hb1 hb2
    have hr := Except.ok.inj hb1
    rw [e] at hr
    have h22 : (i : Int) + 2 - 2 = i := by omega
    rw [h22] at hr
    refine ⟨((mkIndent i ++ "\x7b\n") ++ String.intercalate ("\n") parts).data, ?_⟩
    rw [← hr]
    simp only [str_data_append, List.append_assoc]
  · intro i
    have hnil : String.intercalate ("\n") ([] : List Str) = "" := rfl
    simp only [visit, visitList, chain, hnil, str_append_empty, Int.add_sub_cancel]

/-- C10 witness: the rendering of a one-statement Block at counter zero ends
with the outer indentation, a newline and the closing brace. -/
theorem C10_block_closing_brace_witness :
    List.IsSuffix (mkIndent 0 ++ "\n\x7d").data ("\x7b\nx;\n\x7d").data := by
  apply C10_block_closing_brace.1 (.cons (.ExprStatement (.Identifier ("x"))) .nil) 0
  have he : visit (.Block (.cons (.ExprStatement (.Identifier ("x"))) .nil)) 0 =
      (Except.ok ("\x7b\nx;\n\x7d"), 0) := by
    simp only [visit, visitList, chain]
    decide
  rw [he]
